import Mathlib

/-!
Shallow embedding of the torchaudio streaming media pipeline
(`torchaudio/csrc/ffmpeg/stream_reader/stream_reader.cpp`) and of the sox
effects-chain wrapper (`torchaudio/csrc/sox/effects_chain.cpp`).

The external FFmpeg collaborators (demux layer, decode layer, filter layer)
are modelled as explicit parameters: the result of `av_read_frame` is an
integer status plus the packet's stream index, and a stream processor's
`process_packet` is an arbitrary function from processor state to (new
state, status).  `StreamProcessor` itself lives in `stream_processor.cpp`,
which is not part of the excerpt, so its state and operations are modelled
from the spec; all `StreamReader` methods are translated line by line from
`stream_reader.cpp`.

C++ exceptions are modelled by returning the pair (state, `Except`): every
`throw` in the source occurs before any mutation of the object, so the
error branches return the unchanged state.
-/

deriving instance DecidableEq for Except

/-- Media kind of a source stream (`AVMediaType`); only the three cases the
reader distinguishes are modelled. -/
inductive AVMediaType where
  | audio
  | video
  | other
deriving DecidableEq, Repr

/-- String rendering used in the type-mismatch error message
(`av_get_media_type_string`). -/
def av_get_media_type_string : AVMediaType → String
  | .audio => "audio"
  | .video => "video"
  | .other => "unknown"

/-- FFmpeg `AVERROR_EOF` = -MKTAG('E','O','F',' '). -/
def AVERROR_EOF : Int := -541478725

/-- FFmpeg `AVERROR(EAGAIN)` with the Linux value `EAGAIN = 11`:
the transient "no data yet" status. -/
def AVERROR_EAGAIN : Int := -11

/-- Modelled from the spec: one output-stream definition owned by a
processor (`stream_processor.cpp` is not in the excerpt).  It holds the
chunking parameters, the filter description and the accumulated
not-yet-delivered buffer content (abstract units). -/
structure OutStreamDef where
  frames_per_chunk : Int
  num_chunks : Int
  filter_desc : Option String
  buffer : List Int
deriving DecidableEq, Repr

/-- Modelled from the spec: a per-source-stream processor owns an ordered
mapping from an integer key to an output-stream definition, with a
monotonically increasing key counter. -/
structure StreamProcessor where
  streams : List (Nat × OutStreamDef)
  next_key : Nat
deriving DecidableEq, Repr

/-- Modelled from the spec: `StreamProcessor::add_stream` builds a new
definition and assigns a fresh key, unique among the live definitions. -/
def StreamProcessor.add_stream (p : StreamProcessor) (frames_per_chunk : Int)
    (num_chunks : Int) (filter_desc : Option String) :
    StreamProcessor × Nat :=
  (⟨p.streams ++ [(p.next_key, ⟨frames_per_chunk, num_chunks, filter_desc, []⟩)],
    p.next_key + 1⟩, p.next_key)

/-- Modelled from the spec: `StreamProcessor::remove_stream` discards the
definition stored under `key`. -/
def StreamProcessor.remove_stream (p : StreamProcessor) (key : Nat) :
    StreamProcessor :=
  ⟨p.streams.filter (fun s => s.1 ≠ key), p.next_key⟩

/-- Modelled from the spec: `StreamProcessor::flush` resets decoder/filter
state without destroying the definitions, discarding partially accumulated
buffer content. -/
def StreamProcessor.flush (p : StreamProcessor) : StreamProcessor :=
  ⟨p.streams.map (fun s => (s.1, { s.2 with buffer := [] })), p.next_key⟩

/-- Modelled from the spec: a buffer is ready when it holds
`frames_per_chunk` units. -/
def OutStreamDef.is_buffer_ready (d : OutStreamDef) : Bool :=
  d.frames_per_chunk ≤ (d.buffer.length : Int)

/-- Modelled from the spec: `StreamProcessor::is_buffer_ready` is true when
all owned buffers are ready. -/
def StreamProcessor.is_buffer_ready (p : StreamProcessor) : Bool :=
  p.streams.all (fun s => s.2.is_buffer_ready)

/-- State of `StreamReader` (`stream_reader.cpp`): the per-source-stream
data read from the open format context (media kind, `codecpar->format`,
discard flag), the processor array indexed by source-stream index, and the
dense output index `stream_indices` of (source index, processor key)
pairs. -/
structure StreamReader where
  nb_streams : Nat
  media_types : List AVMediaType
  formats : List Int
  discard : List Bool
  processors : List (Option StreamProcessor)
  stream_indices : List (Nat × Nat)
deriving DecidableEq, Repr

/-- Well-formedness: the per-stream lists all have length `nb_streams`
(they model arrays of size `pFormatContext->nb_streams`). -/
def StreamReader.wf (r : StreamReader) : Prop :=
  r.media_types.length = r.nb_streams ∧ r.formats.length = r.nb_streams ∧
    r.discard.length = r.nb_streams ∧ r.processors.length = r.nb_streams

instance (r : StreamReader) : Decidable r.wf := by
  unfold StreamReader.wf
  infer_instance

/-- `StreamReader::num_src_streams`. -/
def StreamReader.num_src_streams (r : StreamReader) : Int :=
  r.nb_streams

/-- `StreamReader::num_out_streams`. -/
def StreamReader.num_out_streams (r : StreamReader) : Int :=
  r.stream_indices.length

/-- `StreamReader::validate_src_stream_index` (lines 22-27): fails when
`i < 0 || i >= nb_streams`. -/
def StreamReader.validate_src_stream_index (r : StreamReader) (i : Int) :
    Except String Unit :=
  if i < 0 ∨ (r.nb_streams : Int) ≤ i then
    .error "Source stream index out of range"
  else
    .ok ()

/-- `StreamReader::validate_output_stream_index` (lines 29-33): fails when
`i < 0 || i >= stream_indices.size()`. -/
def StreamReader.validate_output_stream_index (r : StreamReader) (i : Int) :
    Except String Unit :=
  if i < 0 ∨ (r.stream_indices.length : Int) ≤ i then
    .error "Output stream index out of range"
  else
    .ok ()

/-- `StreamReader::validate_src_stream_type` (lines 35-43): validates the
index, then the media kind of the stream. -/
def StreamReader.validate_src_stream_type (r : StreamReader) (i : Int)
    (t : AVMediaType) : Except String Unit :=
  match r.validate_src_stream_index i with
  | .error e => .error e
  | .ok _ =>
    if r.media_types.getD i.toNat .other ≠ t then
      .error ("Stream " ++ toString i ++ " is not " ++
        av_get_media_type_string t ++ " stream.")
    else
      .ok ()

/-- The slice of `SrcStreamInfo` representable in this embedding. -/
structure SrcStreamInfo where
  media_type : AVMediaType
  format : Int
deriving DecidableEq, Repr

/-- `StreamReader::get_src_stream_info` (lines 89-129): validates the
index, then reads per-stream data (a const method: it never mutates the
reader). -/
def StreamReader.get_src_stream_info (r : StreamReader) (i : Int) :
    Except String SrcStreamInfo :=
  match r.validate_src_stream_index i with
  | .error e => .error e
  | .ok _ =>
    .ok ⟨r.media_types.getD i.toNat .other, r.formats.getD i.toNat 0⟩

/-- `StreamReader::is_buffer_ready` (lines 155-162): false iff some
present processor is not ready; an absent slot is skipped. -/
def StreamReader.is_buffer_ready (r : StreamReader) : Bool :=
  r.processors.all (fun it =>
    match it with
    | some p => p.is_buffer_ready
    | none => true)

/-- `StreamReader::seek` (lines 167-182).  A negative timestamp throws
before anything else; then the container-level `avformat_seek_file` runs,
whose status is an input `seek_ret` from the demux collaborator (negative
means failure and throws); on success every present processor is
flushed. -/
def StreamReader.seek (r : StreamReader) (timestamp : ℚ) (seek_ret : Int) :
    StreamReader × Except String Unit :=
  if timestamp < 0 then
    (r, .error "timestamp must be non-negative.")
  else if seek_ret < 0 then
    (r, .error "Failed to seek.")
  else
    ({ r with processors := r.processors.map (Option.map StreamProcessor.flush) },
      .ok ())

/-- `StreamReader::add_stream` (lines 240-271): validate index and media
kind, fail when the source format was not detected (`format == -1`),
lazily create the processor, clear the discard flag, register the new
output-stream definition and append `(i, key)` to the output index. -/
def StreamReader.add_stream (r : StreamReader) (i : Int)
    (media_type : AVMediaType) (frames_per_chunk : Int) (num_chunks : Int)
    (filter_desc : Option String) : StreamReader × Except String Unit :=
  match r.validate_src_stream_type i media_type with
  | .error e => (r, .error e)
  | .ok _ =>
    if r.formats.getD i.toNat 0 = -1 then
      (r, .error "Failed to detect the source stream format.")
    else
      let p :=
        match r.processors.getD i.toNat none with
        | some p => p
        | none => ⟨[], 0⟩
      let pk := p.add_stream frames_per_chunk num_chunks filter_desc
      ({ r with
          processors := r.processors.set i.toNat (some pk.1),
          discard := r.discard.set i.toNat false,
          stream_indices := r.stream_indices ++ [(i.toNat, pk.2)] },
        .ok ())

/-- `StreamReader::add_audio_stream` (lines 184-200): delegates to
`add_stream` with the audio media kind. -/
def StreamReader.add_audio_stream (r : StreamReader) (i : Int)
    (frames_per_chunk : Int) (num_chunks : Int)
    (filter_desc : Option String) : StreamReader × Except String Unit :=
  r.add_stream i .audio frames_per_chunk num_chunks filter_desc

/-- `StreamReader::add_video_stream` (lines 202-238) on a build without
CUDA support: any hardware-acceleration request throws the capability
error before anything else; otherwise delegates to `add_stream` with the
video media kind. -/
def StreamReader.add_video_stream (r : StreamReader) (i : Int)
    (frames_per_chunk : Int) (num_chunks : Int)
    (filter_desc : Option String) (hw_accel : Option String) :
    StreamReader × Except String Unit :=
  match hw_accel with
  | some _ =>
    (r, .error "torchaudio is not compiled with CUDA support. Hardware acceleration is not available.")
  | none => r.add_stream i .video frames_per_chunk num_chunks filter_desc

/-- `StreamReader::remove_stream` (lines 273-291): validate the output
index, remove the definition from its processor, erase the output-index
entry, then scan the remaining entries and destroy the processor when no
entry still references its source index. -/
def StreamReader.remove_stream (r : StreamReader) (i : Int) :
    StreamReader × Except String Unit :=
  match r.validate_output_stream_index i with
  | .error e => (r, .error e)
  | .ok _ =>
    let entry := r.stream_indices.getD i.toNat (0, 0)
    let processors1 :=
      match r.processors.getD entry.1 none with
      | some p => r.processors.set entry.1 (some (p.remove_stream entry.2))
      | none => r.processors
    let si := r.stream_indices.eraseIdx i.toNat
    let still_used := si.any (fun q => entry.1 = q.1)
    let processors2 :=
      if still_used then processors1 else processors1.set entry.1 none
    ({ r with processors := processors2, stream_indices := si }, .ok ())

/-- Loop body of `StreamReader::drain` (lines 354-365): every present
processor is fed the null packet via the decode-layer step function
`stepNull`; a negative status overwrites the running result, which starts
at 0. -/
def drainGo (stepNull : StreamProcessor → StreamProcessor × Int) :
    List (Option StreamProcessor) → Int →
    List (Option StreamProcessor) × Int
  | [], ret => ([], ret)
  | none :: ps, ret =>
    let rest := drainGo stepNull ps ret
    (none :: rest.1, rest.2)
  | some p :: ps, ret =>
    let pr := stepNull p
    let rest := drainGo stepNull ps (if pr.2 < 0 then pr.2 else ret)
    (some pr.1 :: rest.1, rest.2)

/-- `StreamReader::drain` (lines 354-365). -/
def StreamReader.drain (stepNull : StreamProcessor → StreamProcessor × Int)
    (r : StreamReader) : StreamReader × Int :=
  let d := drainGo stepNull r.processors 0
  ({ r with processors := d.1 }, d.2)

/-- `StreamReader::process_packet` (lines 301-317).  The demux read is an
input: `read_ret` is the status of `av_read_frame` and `pkt_index` the
packet's `stream_index` on success; `stepPkt` and `stepNull` are the
decode-layer behaviour of `StreamProcessor::process_packet` on the packet
and on the null (drain) packet. -/
def StreamReader.process_packet
    (stepPkt stepNull : StreamProcessor → StreamProcessor × Int)
    (read_ret : Int) (pkt_index : Nat) (r : StreamReader) :
    StreamReader × Int :=
  if read_ret = AVERROR_EOF then
    let d := r.drain stepNull
    (d.1, if d.2 < 0 then d.2 else 1)
  else if read_ret < 0 then
    (r, read_ret)
  else
    match r.processors.getD pkt_index none with
    | none => (r, 0)
    | some p =>
      let pr := stepPkt p
      ({ r with processors := r.processors.set pkt_index (some pr.1) },
        if pr.2 < 0 then pr.2 else 0)

/-- Deadline check of the retry loop in `StreamReader::process_packet_block`
(lines 323-351): `none` models the unreachable deadline
`time_point::max()` chosen when `timeout < 0`, for which `dead_line < now`
never holds; otherwise it is `dead_line < now` at the clock reading of the
current poll. -/
def deadlinePassed (dead_line : Option Int) (now : Int) : Bool :=
  match dead_line with
  | none => false
  | some d => decide (d < now)

/-- Loop of `StreamReader::process_packet_block` (lines 336-350), made
terminating with explicit fuel (`none` = the loop is still running after
`fuel` polls).  `results n` is the status of the n-th call to
`process_packet`, `nowAt n` the clock reading of the n-th deadline check.
On return, the second component is the index of the returning poll, which
equals the number of `backoff` sleeps performed (one sleep per transient
poll that continues). -/
def processPacketBlockGo (results : Nat → Int) (nowAt : Nat → Int)
    (dead_line : Option Int) : Nat → Nat → Option (Int × Nat)
  | 0, _ => none
  | fuel + 1, n =>
    let ret := results n
    if ret ≠ AVERROR_EAGAIN then
      some (ret, n)
    else if deadlinePassed dead_line (nowAt n) then
      some (ret, n)
    else
      processPacketBlockGo results nowAt dead_line fuel (n + 1)

/-- Deadline of `process_packet_block` (lines 324-332): absent (the
unreachable `time_point::max()`) when `timeout < 0`, otherwise the call
time plus `1000 * timeout` microseconds (`static_cast<int64_t>` truncates,
which on a non-negative value is the floor). -/
def blockDeadline (timeout : ℚ) (callTime : Int) : Option Int :=
  if timeout < 0 then none else some (callTime + Int.floor (1000 * timeout))

/-- `StreamReader::process_packet_block` (lines 323-351).  `timeout` and
`backoff` are in milliseconds; `backoff` only fixes the duration of each
sleep and does not influence control flow. -/
def StreamReader.process_packet_block (results : Nat → Int)
    (nowAt : Nat → Int) (timeout backoff : ℚ) (callTime : Int)
    (fuel : Nat) : Option (Int × Nat) :=
  processPacketBlockGo results nowAt (blockDeadline timeout callTime) fuel 0

/-- State of the sox effects chain visible to `addEffect`
(`effects_chain.cpp`): the ordered list of effect names successfully added
so far. -/
structure SoxEffectsChain where
  chain : List String
deriving DecidableEq, Repr

/-- `SoxEffectsChain::addEffect` (`effects_chain.cpp` lines 268-312).  The
external sox library is a parameter: `unsupported` is the
`UNSUPPORTED_EFFECTS` set, `findEffect name` tells whether
`sox_find_effect` finds the name in the registry, `optsOk` whether
`sox_effect_options` accepts the option vector, `addOk` whether
`sox_add_effect` succeeds.  Every throw happens before the effect is added
to the chain. -/
def SoxEffectsChain.addEffect (unsupported : List String)
    (findEffect : String → Bool) (optsOk : List String → Bool)
    (addOk : Bool) (st : SoxEffectsChain) (effect : List String) :
    SoxEffectsChain × Except String Unit :=
  match effect with
  | [] => (st, .error "Invalid argument: empty effect.")
  | name :: opts =>
    if unsupported.contains name then
      (st, .error ("Unsupported effect: " ++ name))
    else if !findEffect name then
      (st, .error ("Unsupported effect: " ++ name))
    else if !optsOk opts then
      (st, .error ("Invalid effect option: " ++ String.intercalate " " effect))
    else if !addOk then
      (st, .error ("Internal Error: Failed to add effect: " ++ name))
    else
      (⟨st.chain ++ [name]⟩, .ok ())

/-- Freshly opened reader with two source streams and no output stream:
every processor slot is empty. -/
def freshReader : StreamReader :=
  ⟨2, [.audio, .video], [0, 0], [false, false], [none, none], []⟩

/-- Reader with one video and one audio source stream, used to exercise
the type-mismatch failure. -/
def mismatchReader : StreamReader :=
  ⟨2, [.video, .audio], [0, 0], [false, false], [none, none], []⟩

/-- Reader with one audio source stream carrying two output streams: the
output index is longer than the source-stream count. -/
def twoOutReader : StreamReader :=
  ⟨1, [.audio], [0], [false],
    [some ⟨[(0, ⟨10, 3, none, []⟩), (1, ⟨10, 3, none, []⟩)], 2⟩],
    [(0, 0), (0, 1)]⟩

/-- Reader with two source streams, one active processor on index 0 and
one output stream bound to it: a concrete state satisfying the arena
invariant. -/
def invReader : StreamReader :=
  ⟨2, [.audio, .video], [0, 0], [false, false],
    [some ⟨[(0, ⟨4, 2, none, []⟩)], 1⟩, none], [(0, 0)]⟩

/-!  Helper lemmas (shared; none of them is a claim's theorem). -/

theorem validate_src_stream_index_ok {r : StreamReader} {i : Int}
    (h : r.validate_src_stream_index i = .ok ()) :
    0 ≤ i ∧ i < (r.nb_streams : Int) := by
  unfold StreamReader.validate_src_stream_index at h
  split at h
  · exact absurd h (by simp)
  · omega

theorem validate_src_stream_type_ok {r : StreamReader} {i : Int}
    {t : AVMediaType} (h : r.validate_src_stream_type i t = .ok ()) :
    0 ≤ i ∧ i < (r.nb_streams : Int) ∧
      r.media_types.getD i.toNat .other = t := by
  unfold StreamReader.validate_src_stream_type at h
  unfold StreamReader.validate_src_stream_index at h
  by_cases h1 : i < 0 ∨ (r.nb_streams : Int) ≤ i
  · simp [h1] at h
  · by_cases h2 : r.media_types.getD i.toNat .other ≠ t
    · simp [h1, h2] at h
      rw [List.getD_eq_getElem?_getD] at h2
      exact absurd h h2
    · exact ⟨by omega, by omega, not_not.mp h2⟩

/-- C10: `is_buffer_ready()` returns true whenever no processor is active
(for example on a freshly opened reader with zero output streams
configured): readiness is quantified only over existing processors, so the
empty case is vacuously ready. -/
theorem is_buffer_ready_of_no_active_processor (r : StreamReader)
    (h : ∀ p ∈ r.processors, p = none) : r.is_buffer_ready = true := by
  unfold StreamReader.is_buffer_ready
  rw [List.all_eq_true]
  intro x hx
  rw [h x hx]

/-- Witness for C10 at a concrete fresh reader. -/
theorem is_buffer_ready_of_no_active_processor_witness :
    freshReader.is_buffer_ready = true :=
  is_buffer_ready_of_no_active_processor freshReader (by decide)

/-- C5: for every negative timestamp, `seek` fails and leaves the reader
(buffers, processors, demux position, output index) unchanged; for every
non-negative timestamp on which the container-level seek succeeds
(`seek_ret ≥ 0`), `seek` succeeds and flushes every active processor,
which keeps every output-stream definition but discards its buffered
partial data. -/
theorem seek_spec (r : StreamReader) (t : ℚ) (seek_ret : Int) :
    (t < 0 → r.seek t seek_ret = (r, .error "timestamp must be non-negative.")) ∧
    (0 ≤ t → 0 ≤ seek_ret →
      (r.seek t seek_ret).2 = .ok () ∧
      (r.seek t seek_ret).1.processors
          = r.processors.map (Option.map StreamProcessor.flush) ∧
      (r.seek t seek_ret).1.stream_indices = r.stream_indices ∧
      (r.seek t seek_ret).1.discard = r.discard ∧
      ∀ p : StreamProcessor,
        (StreamProcessor.flush p).streams.map Prod.fst
            = p.streams.map Prod.fst ∧
        ∀ s ∈ (StreamProcessor.flush p).streams, s.2.buffer = []) := by
  constructor
  · intro ht
    simp [StreamReader.seek, ht]
  · intro ht hs
    have h1 : ¬ t < 0 := not_lt.mpr ht
    have h2 : ¬ seek_ret < 0 := not_lt.mpr hs
    refine ⟨by simp [StreamReader.seek, h1, h2], by simp [StreamReader.seek, h1, h2],
      by simp [StreamReader.seek, h1, h2], by simp [StreamReader.seek, h1, h2], ?_⟩
    intro p
    constructor
    · simp [StreamProcessor.flush]
    · intro s hs'
      simp only [StreamProcessor.flush, List.mem_map] at hs'
      obtain ⟨a, _, ha⟩ := hs'
      rw [← ha]

/-- C7: for every valid source index whose media kind is video,
`add_audio_stream` fails with the type-mismatch error, and symmetrically
`add_video_stream` on an audio stream fails; on this failure the reader is
unchanged: no processor is created, no output-stream definition is
registered and the output index stays as it was. -/
theorem add_stream_type_mismatch (r : StreamReader) (i fpc nc : Int)
    (fd : Option String) (h0 : 0 ≤ i) (h1 : i < (r.nb_streams : Int)) :
    (r.media_types.getD i.toNat .other = .video →
      r.add_audio_stream i fpc nc fd
          = (r, .error ("Stream " ++ toString i ++ " is not " ++
              av_get_media_type_string .audio ++ " stream."))) ∧
    (r.media_types.getD i.toNat .other = .audio →
      r.add_video_stream i fpc nc fd none
          = (r, .error ("Stream " ++ toString i ++ " is not " ++
              av_get_media_type_string .video ++ " stream."))) := by
  have hidx : ¬(i < 0 ∨ (r.nb_streams : Int) ≤ i) := by omega
  constructor
  · intro hm
    rw [List.getD_eq_getElem?_getD] at hm
    have hne : r.media_types[i.toNat]?.getD .other ≠ .audio := by simp [hm]
    simp [StreamReader.add_audio_stream, StreamReader.add_stream,
      StreamReader.validate_src_stream_type,
      StreamReader.validate_src_stream_index, hidx, hne]
  · intro hm
    rw [List.getD_eq_getElem?_getD] at hm
    have hne : r.media_types[i.toNat]?.getD .other ≠ .video := by simp [hm]
    simp [StreamReader.add_video_stream, StreamReader.add_stream,
      StreamReader.validate_src_stream_type,
      StreamReader.validate_src_stream_index, hidx, hne]

/-- Witness for C7: `add_audio_stream` on the video stream 0 and
`add_video_stream` on the audio stream 1 both fail without mutating. -/
theorem add_stream_type_mismatch_witness :
    (mismatchReader.add_audio_stream 0 3 2 none
        = (mismatchReader, .error ("Stream " ++ toString (0 : Int) ++
            " is not " ++ av_get_media_type_string .audio ++ " stream."))) ∧
    (mismatchReader.add_video_stream 1 3 2 none none
        = (mismatchReader, .error ("Stream " ++ toString (1 : Int) ++
            " is not " ++ av_get_media_type_string .video ++ " stream."))) :=
  ⟨(add_stream_type_mismatch mismatchReader 0 3 2 none (by decide)
      (by decide)).1 (by decide),
   (add_stream_type_mismatch mismatchReader 1 3 2 none (by decide)
      (by decide)).2 (by decide)⟩

/-- C8: `addEffect` raises a validation error synchronously, before adding
anything to the chain, for every empty effect argument list and for every
effect whose name is in the unsupported set or unknown to the effect
registry; in each case the chain state is returned unchanged. -/
theorem addEffect_validation (unsupported : List String)
    (findEffect : String → Bool) (optsOk : List String → Bool)
    (addOk : Bool) (st : SoxEffectsChain) (effect : List String) :
    (effect = [] →
      SoxEffectsChain.addEffect unsupported findEffect optsOk addOk st effect
          = (st, .error "Invalid argument: empty effect.")) ∧
    (∀ name opts, effect = name :: opts →
      name ∈ unsupported ∨ findEffect name = false →
      SoxEffectsChain.addEffect unsupported findEffect optsOk addOk st effect
          = (st, .error ("Unsupported effect: " ++ name))) := by
  constructor
  · intro he
    subst he
    rfl
  · intro name opts he hbad
    subst he
    by_cases hc : unsupported.contains name = true
    · have hm' : name ∈ unsupported := List.elem_iff.mp hc
      simp [SoxEffectsChain.addEffect, hm']
    · have hm' : name ∉ unsupported := fun h => hc (List.elem_iff.mpr h)
      have hnf : findEffect name = false := by
        rcases hbad with hmem | hnf
        · exact absurd hmem hm'
        · exact hnf
      simp [SoxEffectsChain.addEffect, hm', hnf]

/-- C6 counterexample: index 1 lies outside `[0, num_src_streams())` of
`twoOutReader` (which has a single source stream), yet `remove_stream(1)`
does not fail with an out-of-range error: it succeeds and mutates the
state, because `remove_stream` validates against the output-index range
`[0, num_out_streams())`, which here is larger. -/
theorem remove_stream_out_of_src_range_succeeds :
    ¬ ((1 : Int) < twoOutReader.num_src_streams) ∧
    (twoOutReader.remove_stream 1).2 = .ok () ∧
    (twoOutReader.remove_stream 1).1 ≠ twoOutReader := by
  decide

/-- C6 (amended): for every index outside `[0, num_src_streams())`, every
stream-info and add call taking that index fails with the out-of-range
error and mutates no state; `remove_stream` takes an output index, so it
is the indices outside `[0, num_out_streams())` on which it fails with
the out-of-range error and mutates no state. -/
theorem index_validation_spec (r : StreamReader) (i fpc nc : Int)
    (fd : Option String) :
    ((i < 0 ∨ r.num_src_streams ≤ i) →
      r.get_src_stream_info i = .error "Source stream index out of range" ∧
      r.add_audio_stream i fpc nc fd
          = (r, .error "Source stream index out of range") ∧
      r.add_video_stream i fpc nc fd none
          = (r, .error "Source stream index out of range")) ∧
    ((i < 0 ∨ r.num_out_streams ≤ i) →
      r.remove_stream i
          = (r, .error "Output stream index out of range")) := by
  constructor
  · intro hbad
    have hb : i < 0 ∨ (r.nb_streams : Int) ≤ i := hbad
    refine ⟨?_, ?_, ?_⟩
    · simp [StreamReader.get_src_stream_info,
        StreamReader.validate_src_stream_index, hb]
    · simp [StreamReader.add_audio_stream, StreamReader.add_stream,
        StreamReader.validate_src_stream_type,
        StreamReader.validate_src_stream_index, hb]
    · simp [StreamReader.add_video_stream, StreamReader.add_stream,
        StreamReader.validate_src_stream_type,
        StreamReader.validate_src_stream_index, hb]
  · intro hbad
    have hb : i < 0 ∨ (r.stream_indices.length : Int) ≤ i := hbad
    simp [StreamReader.remove_stream,
      StreamReader.validate_output_stream_index, hb]

/-- C4: the output index is a dense ordered sequence.  Every successful
`add_stream` appends exactly one entry, placed at position
`num_out_streams()` (the old length), and bound to source index `i`; for
every valid output index, `remove_stream` succeeds, deletes exactly that
entry, keeps every earlier entry in place and shifts every later entry
down by one. -/
theorem output_index_dense (r : StreamReader) (i : Int) (mt : AVMediaType)
    (fpc nc : Int) (fd : Option String) (d : Nat × Nat) :
    ((r.add_stream i mt fpc nc fd).2 = .ok () →
      ∃ k, (r.add_stream i mt fpc nc fd).1.stream_indices
          = r.stream_indices ++ [(i.toNat, k)] ∧
        (r.add_stream i mt fpc nc fd).1.stream_indices.getD
            r.stream_indices.length d = (i.toNat, k)) ∧
    (0 ≤ i → i < r.num_out_streams →
      (r.remove_stream i).2 = .ok () ∧
      ((r.remove_stream i).1.stream_indices.length : Int)
          = r.num_out_streams - 1 ∧
      (∀ j : Nat, j < i.toNat →
        (r.remove_stream i).1.stream_indices.getD j d
            = r.stream_indices.getD j d) ∧
      (∀ j : Nat, i.toNat ≤ j →
        (r.remove_stream i).1.stream_indices.getD j d
            = r.stream_indices.getD (j + 1) d)) := by
  constructor
  · intro hok
    cases hv : r.validate_src_stream_type i mt with
    | error e => simp [StreamReader.add_stream, hv] at hok
    | ok u =>
      by_cases hf : r.formats[i.toNat]?.getD 0 = -1
      · simp [StreamReader.add_stream, hv, hf] at hok
      · refine ⟨(match r.processors[i.toNat]?.getD none with
            | some p => p
            | none => (⟨[], 0⟩ : StreamProcessor)).next_key, ?_, ?_⟩
        · simp [StreamReader.add_stream, hv, hf, StreamProcessor.add_stream]
        · simp [StreamReader.add_stream, hv, hf, StreamProcessor.add_stream,
            List.getD_eq_getElem?_getD, List.getElem?_append_right]
  · intro h0 hlen
    have hlen' : i < (r.stream_indices.length : Int) := hlen
    have hb : ¬(i < 0 ∨ (r.stream_indices.length : Int) ≤ i) := by omega
    have hn : i.toNat < r.stream_indices.length := by omega
    have hval : r.validate_output_stream_index i = .ok () := by
      simp [StreamReader.validate_output_stream_index, hb]
    refine ⟨?_, ?_, ?_, ?_⟩
    · simp [StreamReader.remove_stream, hval]
    · simp only [StreamReader.remove_stream, hval,
        StreamReader.num_out_streams, List.length_eraseIdx, hn, if_pos]
      omega
    · intro j hj
      simp [StreamReader.remove_stream, hval,
        List.getD_eq_getElem?_getD, List.getElem?_eraseIdx, hj]
    · intro j hj
      have hj' : ¬ j < i.toNat := by omega
      simp [StreamReader.remove_stream, hval,
        List.getD_eq_getElem?_getD, List.getElem?_eraseIdx, hj']

theorem getLast?_getD_shift {α : Type} (t : α) (l : List α) (a : α) :
    ((t :: l).getLast?).getD a = (l.getLast?).getD t := by
  cases l with
  | nil => rfl
  | cons b l' =>
    rw [List.getLast?_cons_cons]
    have hs : ((b :: l').getLast?).isSome = true :=
      List.getLast?_isSome.mpr (by simp)
    obtain ⟨x, hx⟩ := Option.isSome_iff_exists.mp hs
    rw [hx]
    rfl

theorem drainGo_processors (stepNull : StreamProcessor → StreamProcessor × Int) :
    ∀ (ps : List (Option StreamProcessor)) (ret : Int),
      (drainGo stepNull ps ret).1
          = ps.map (Option.map (fun p => (stepNull p).1)) := by
  intro ps
  induction ps with
  | nil => intro ret; rfl
  | cons hd tl ih =>
    intro ret
    cases hd with
    | none => simp [drainGo, ih]
    | some p => simp [drainGo, ih]

theorem drainGo_status (stepNull : StreamProcessor → StreamProcessor × Int) :
    ∀ (ps : List (Option StreamProcessor)) (ret : Int),
      (drainGo stepNull ps ret).2
          = ((((ps.filterMap id).map (fun p => (stepNull p).2)).filter
              (fun t => decide (t < 0))).getLast?).getD ret := by
  intro ps
  induction ps with
  | nil => intro ret; rfl
  | cons hd tl ih =>
    intro ret
    cases hd with
    | none => simp [drainGo, ih]
    | some p =>
      by_cases ht : (stepNull p).2 < 0
      · simp [drainGo, ih, ht, getLast?_getD_shift]
      · simp [drainGo, ih, ht]

/-- C9: when the drain pass runs, every present processor is flushed with
the null packet — a failing flush does not stop the pass — and the status
returned by `drain` is the most recent (last) negative flush status, or 0
when no flush failed.  The output index is untouched. -/
theorem drain_spec (stepNull : StreamProcessor → StreamProcessor × Int)
    (r : StreamReader) :
    (r.drain stepNull).1.processors
        = r.processors.map (Option.map (fun p => (stepNull p).1)) ∧
    (r.drain stepNull).1.stream_indices = r.stream_indices ∧
    (r.drain stepNull).2
        = ((((r.processors.filterMap id).map (fun p => (stepNull p).2)).filter
            (fun t => decide (t < 0))).getLast?).getD 0 := by
  refine ⟨?_, rfl, ?_⟩
  · simpa [StreamReader.drain] using drainGo_processors stepNull r.processors 0
  · simpa [StreamReader.drain] using drainGo_status stepNull r.processors 0

/-- C1: case analysis of `process_packet()`.  On end-of-stream from the
read, the drain pass runs over every active processor and the call
returns 1, unless the drain status is negative, which is returned
instead; any other negative read status is returned unchanged with the
reader untouched; on a successful read whose packet stream index has no
active processor, 0 is returned and no processor is touched; otherwise
exactly the processor at the packet's index handles the packet and the
call returns 0 on its success or its negative status on failure. -/
theorem process_packet_spec
    (stepPkt stepNull : StreamProcessor → StreamProcessor × Int)
    (read_ret : Int) (pkt_index : Nat) (r : StreamReader) :
    (read_ret = AVERROR_EOF →
      StreamReader.process_packet stepPkt stepNull read_ret pkt_index r
          = ((r.drain stepNull).1,
            if (r.drain stepNull).2 < 0 then (r.drain stepNull).2 else 1) ∧
      (StreamReader.process_packet stepPkt stepNull read_ret pkt_index r).1.processors
          = r.processors.map (Option.map (fun p => (stepNull p).1))) ∧
    (read_ret < 0 → read_ret ≠ AVERROR_EOF →
      StreamReader.process_packet stepPkt stepNull read_ret pkt_index r
          = (r, read_ret)) ∧
    (0 ≤ read_ret → r.processors.getD pkt_index none = none →
      StreamReader.process_packet stepPkt stepNull read_ret pkt_index r
          = (r, 0)) ∧
    (∀ p, 0 ≤ read_ret → r.processors.getD pkt_index none = some p →
      StreamReader.process_packet stepPkt stepNull read_ret pkt_index r
          = ({ r with
                processors := r.processors.set pkt_index (some (stepPkt p).1) },
            if (stepPkt p).2 < 0 then (stepPkt p).2 else 0)) := by
  refine ⟨?_, ?_, ?_, ?_⟩
  · intro he
    constructor
    · simp [StreamReader.process_packet, he]
    · simp [StreamReader.process_packet, he, StreamReader.drain,
        drainGo_processors]
  · intro hneg hne
    simp [StreamReader.process_packet, hne, hneg]
  · intro hpos hnone
    have hne : read_ret ≠ AVERROR_EOF := by unfold AVERROR_EOF; omega
    have hnlt : ¬ read_ret < 0 := by omega
    rw [List.getD_eq_getElem?_getD] at hnone
    simp [StreamReader.process_packet, hne, hnlt, hnone]
  · intro p hpos hsome
    have hne : read_ret ≠ AVERROR_EOF := by unfold AVERROR_EOF; omega
    have hnlt : ¬ read_ret < 0 := by omega
    rw [List.getD_eq_getElem?_getD] at hsome
    simp [StreamReader.process_packet, hne, hnlt, hsome]

theorem processPacketBlockGo_skip (results nowAt : Nat → Int)
    (dl : Option Int) :
    ∀ (k f n : Nat), k ≤ f →
      (∀ j, j < k → results (n + j) = AVERROR_EAGAIN ∧
        deadlinePassed dl (nowAt (n + j)) = false) →
      processPacketBlockGo results nowAt dl f n
          = processPacketBlockGo results nowAt dl (f - k) (n + k) := by
  intro k
  induction k with
  | zero =>
    intro f n _ _
    simp
  | succ k ih =>
    intro f n hkf h
    obtain ⟨f', rfl⟩ : ∃ f', f = f' + 1 := ⟨f - 1, by omega⟩
    have h0 := h 0 (by omega)
    simp only [Nat.add_zero] at h0
    have hstep : processPacketBlockGo results nowAt dl (f' + 1) n
        = processPacketBlockGo results nowAt dl f' (n + 1) := by
      simp [processPacketBlockGo, h0.1, h0.2]
    rw [hstep]
    have hrec := ih f' (n + 1) (by omega) (fun j hj => by
      have hh := h (j + 1) (by omega)
      have he : n + (j + 1) = n + 1 + j := by omega
      rw [he] at hh
      exact hh)
    rw [hrec]
    have e1 : f' - k = f' + 1 - (k + 1) := by omega
    have e2 : n + 1 + k = n + (k + 1) := by omega
    rw [e1, e2]

theorem processPacketBlockGo_none_ne (results nowAt : Nat → Int) :
    ∀ (f n : Nat) (ret : Int) (m : Nat),
      processPacketBlockGo results nowAt none f n = some (ret, m) →
      ret ≠ AVERROR_EAGAIN := by
  intro f
  induction f with
  | zero =>
    intro n ret m h
    simp [processPacketBlockGo] at h
  | succ f ih =>
    intro n ret m h
    by_cases hne : results n ≠ AVERROR_EAGAIN
    · simp [processPacketBlockGo, hne] at h
      rw [← h.1]
      exact hne
    · have he : results n = AVERROR_EAGAIN := not_not.mp hne
      simp only [processPacketBlockGo, he, deadlinePassed] at h
      simp at h
      exact ih (n + 1) ret m h

/-- Invariant of the processor arena (claim C3): a processor slot is
occupied exactly when at least one output-index entry references that
source index, and every output-index entry references a valid source
index.  "At most one processor per source index" is structural here:
`processors` holds one slot per source index. -/
def StreamReader.proc_inv (r : StreamReader) : Prop :=
  (∀ iP, iP < r.nb_streams →
    ((r.processors.getD iP none).isSome = true ↔
      ∃ q ∈ r.stream_indices, q.1 = iP)) ∧
  ∀ q ∈ r.stream_indices, q.1 < r.nb_streams

instance (r : StreamReader) : Decidable r.proc_inv := by
  unfold StreamReader.proc_inv
  infer_instance

theorem validate_output_stream_index_ok {r : StreamReader} {i : Int}
    (h : r.validate_output_stream_index i = .ok ()) :
    0 ≤ i ∧ i < (r.stream_indices.length : Int) := by
  unfold StreamReader.validate_output_stream_index at h
  split at h
  · exact absurd h (by simp)
  · omega

theorem getD_set_ne {α : Type} (l : List α) (a b : Nat) (v d : α)
    (hne : a ≠ b) : (l.set a v).getD b d = l.getD b d := by
  rw [List.getD_eq_getElem?_getD, List.getElem?_set, if_neg hne,
    ← List.getD_eq_getElem?_getD]

theorem getD_set_self {α : Type} (l : List α) (a : Nat) (v d : α)
    (h : a < l.length) : (l.set a v).getD a d = v := by
  rw [List.getD_eq_getElem?_getD, List.getElem?_set, if_pos rfl]
  simp [h]

theorem add_stream_preserves_inv (r : StreamReader) (i : Int)
    (mt : AVMediaType) (fpc nc : Int) (fd : Option String)
    (hwf : r.wf) (hinv : r.proc_inv) :
    (r.add_stream i mt fpc nc fd).1.wf ∧
      (r.add_stream i mt fpc nc fd).1.proc_inv := by
  obtain ⟨hw1, hw2, hw3, hw4⟩ := hwf
  obtain ⟨hi1, hi2⟩ := hinv
  cases hv : r.validate_src_stream_type i mt with
  | error e =>
    simp only [StreamReader.add_stream, hv]
    exact ⟨⟨hw1, hw2, hw3, hw4⟩, hi1, hi2⟩
  | ok u =>
    obtain ⟨h0, h1, hmt⟩ := validate_src_stream_type_ok (by cases u; exact hv)
    by_cases hf : r.formats.getD i.toNat 0 = -1
    · simp only [StreamReader.add_stream, hv, if_pos hf]
      exact ⟨⟨hw1, hw2, hw3, hw4⟩, hi1, hi2⟩
    · have hlt : i.toNat < r.nb_streams := by omega
      have hplt : i.toNat < r.processors.length := by omega
      have heq : (r.add_stream i mt fpc nc fd).1
          = { r with
              processors := r.processors.set i.toNat
                (some ((match r.processors.getD i.toNat none with
                  | some p => p
                  | none => (⟨[], 0⟩ : StreamProcessor)).add_stream fpc nc fd).1),
              discard := r.discard.set i.toNat false,
              stream_indices := r.stream_indices ++
                [(i.toNat, ((match r.processors.getD i.toNat none with
                  | some p => p
                  | none => (⟨[], 0⟩ : StreamProcessor)).add_stream fpc nc fd).2)] } := by
        simp only [StreamReader.add_stream, hv, if_neg hf]
      rw [heq]
      constructor
      · unfold StreamReader.wf
        dsimp only
        simp only [List.length_set]
        exact ⟨hw1, hw2, hw3, hw4⟩
      · unfold StreamReader.proc_inv
        dsimp only
        constructor
        · intro iP hiP
          by_cases hip : iP = i.toNat
          · subst hip
            rw [getD_set_self r.processors i.toNat _ none (by omega)]
            refine iff_of_true rfl ?_
            refine ⟨(i.toNat, ((match r.processors.getD i.toNat none with
              | some p => p
              | none => (⟨[], 0⟩ : StreamProcessor)).add_stream fpc nc fd).2),
              ?_, rfl⟩
            exact List.mem_append_right _ (List.mem_singleton_self _)
          · rw [getD_set_ne r.processors i.toNat iP _ none
              (fun he => hip he.symm)]
            rw [hi1 iP hiP]
            constructor
            · intro hex
              obtain ⟨q, hq, he⟩ := hex
              exact ⟨q, List.mem_append_left _ hq, he⟩
            · intro hex
              obtain ⟨q, hq, he⟩ := hex
              rcases List.mem_append.mp hq with hq1 | hq1
              · exact ⟨q, hq1, he⟩
              · rw [List.mem_singleton] at hq1
                subst hq1
                exact absurd he.symm hip
        · intro q hq
          rcases List.mem_append.mp hq with hq1 | hq1
          · exact hi2 q hq1
          · rw [List.mem_singleton] at hq1
            subst hq1
            exact hlt

theorem remove_stream_preserves_inv (r : StreamReader) (i : Int)
    (hwf : r.wf) (hinv : r.proc_inv) :
    (r.remove_stream i).1.wf ∧ (r.remove_stream i).1.proc_inv := by
  obtain ⟨hw1, hw2, hw3, hw4⟩ := hwf
  obtain ⟨hi1, hi2⟩ := hinv
  cases hval : r.validate_output_stream_index i with
  | error e =>
    simp only [StreamReader.remove_stream, hval]
    exact ⟨⟨hw1, hw2, hw3, hw4⟩, hi1, hi2⟩
  | ok u =>
    have hb := validate_output_stream_index_ok (by cases u; exact hval)
    have hn : i.toNat < r.stream_indices.length := by omega
    have hentry : r.stream_indices.getD i.toNat (0, 0)
        = r.stream_indices.get ⟨i.toNat, hn⟩ := by
      rw [List.getD_eq_getElem?_getD, List.getElem?_eq_getElem hn]
      rfl
    have hmem : r.stream_indices.getD i.toNat (0, 0) ∈ r.stream_indices := by
      rw [hentry]
      exact List.get_mem r.stream_indices i.toNat hn
    have hPlt : (r.stream_indices.getD i.toNat (0, 0)).1 < r.nb_streams :=
      hi2 _ hmem
    have hPplt : (r.stream_indices.getD i.toNat (0, 0)).1
        < r.processors.length := by omega
    have hsome :
        (r.processors.getD (r.stream_indices.getD i.toNat (0, 0)).1
          none).isSome = true :=
      (hi1 _ hPlt).mpr ⟨_, hmem, rfl⟩
    obtain ⟨p, hp⟩ := Option.isSome_iff_exists.mp hsome
    have heq : (r.remove_stream i).1
        = { r with
            processors :=
              if (r.stream_indices.eraseIdx i.toNat).any
                  (fun q => (r.stream_indices.getD i.toNat (0, 0)).1 = q.1) then
                r.processors.set (r.stream_indices.getD i.toNat (0, 0)).1
                  (some (p.remove_stream
                    (r.stream_indices.getD i.toNat (0, 0)).2))
              else
                (r.processors.set (r.stream_indices.getD i.toNat (0, 0)).1
                  (some (p.remove_stream
                    (r.stream_indices.getD i.toNat (0, 0)).2))).set
                  (r.stream_indices.getD i.toNat (0, 0)).1 none,
            stream_indices := r.stream_indices.eraseIdx i.toNat } := by
      simp only [StreamReader.remove_stream, hval, hp]
    rw [heq]
    have hmem_shift :
        ∀ iP, iP ≠ (r.stream_indices.getD i.toNat (0, 0)).1 →
          ((∃ q ∈ r.stream_indices.eraseIdx i.toNat, q.1 = iP) ↔
            ∃ q ∈ r.stream_indices, q.1 = iP) := by
      intro iP hip
      constructor
      · intro hex
        obtain ⟨q, hq, he⟩ := hex
        exact ⟨q, List.mem_of_mem_eraseIdx hq, he⟩
      · intro hex
        obtain ⟨q, hq, he⟩ := hex
        obtain ⟨j, hj, hjq⟩ := List.mem_iff_getElem.mp hq
        have hjne : j ≠ i.toNat := by
          intro hje
          subst hje
          apply hip
          rw [← he, ← hjq, hentry]
          rfl
        exact ⟨q, List.mem_eraseIdx_iff_getElem.mpr ⟨j, hj, hjne, hjq⟩, he⟩
    constructor
    · unfold StreamReader.wf
      dsimp only
      by_cases hc :
          (r.stream_indices.eraseIdx i.toNat).any
            (fun q => (r.stream_indices.getD i.toNat (0, 0)).1 = q.1) = true
      · rw [if_pos hc, List.length_set]
        exact ⟨hw1, hw2, hw3, hw4⟩
      · rw [if_neg hc, List.length_set, List.length_set]
        exact ⟨hw1, hw2, hw3, hw4⟩
    · unfold StreamReader.proc_inv
      dsimp only
      constructor
      · intro iP hiP
        by_cases hc :
            (r.stream_indices.eraseIdx i.toNat).any
              (fun q => (r.stream_indices.getD i.toNat (0, 0)).1 = q.1) = true
        · rw [if_pos hc]
          by_cases hip : iP = (r.stream_indices.getD i.toNat (0, 0)).1
          · subst hip
            rw [getD_set_self r.processors
              (r.stream_indices.getD i.toNat (0, 0)).1 _ none (by omega)]
            simp only [Option.isSome_some, true_iff]
            rw [List.any_eq_true] at hc
            obtain ⟨q, hq, he⟩ := hc
            rw [decide_eq_true_eq] at he
            exact ⟨q, hq, he.symm⟩
          · rw [getD_set_ne r.processors _ iP _ none (fun he => hip he.symm)]
            rw [hi1 iP hiP]
            exact (hmem_shift iP hip).symm
        · rw [if_neg hc]
          by_cases hip : iP = (r.stream_indices.getD i.toNat (0, 0)).1
          · subst hip
            rw [getD_set_self _ _ none none (by rw [List.length_set]; omega)]
            refine iff_of_false (by simp) ?_
            intro hex
            obtain ⟨q, hq, he⟩ := hex
            apply hc
            rw [List.any_eq_true]
            exact ⟨q, hq, by rw [decide_eq_true_eq]; exact he.symm⟩
          · rw [getD_set_ne _ _ iP none none (fun he => hip he.symm)]
            rw [getD_set_ne r.processors _ iP _ none (fun he => hip he.symm)]
            rw [hi1 iP hiP]
            exact (hmem_shift iP hip).symm
      · intro q hq
        exact hi2 q (List.mem_of_mem_eraseIdx hq)

/-- C2: the blocking driver `process_packet_block(timeout, backoff)`
repeatedly invokes `process_packet`.  If the first `k` results are the
transient `AVERROR(EAGAIN)` with the deadline not yet passed at those
polls, then: when the k-th result is not transient it is returned, after
exactly `k` backoff sleeps (one between each pair of polls); when the k-th
result is still transient but the deadline — call time plus `timeout`
milliseconds — has passed, the transient status itself is returned, not a
distinct error; and a negative `timeout` yields no deadline at all, so
the driver can only ever return a non-transient status. -/
theorem process_packet_block_spec (results nowAt : Nat → Int)
    (timeout backoff : ℚ) (callTime : Int) (fuel k : Nat) :
    (k < fuel →
      (∀ j, j < k → results j = AVERROR_EAGAIN ∧
        deadlinePassed (blockDeadline timeout callTime) (nowAt j) = false) →
      results k ≠ AVERROR_EAGAIN →
      StreamReader.process_packet_block results nowAt timeout backoff
          callTime fuel = some (results k, k)) ∧
    (k < fuel →
      (∀ j, j < k → results j = AVERROR_EAGAIN ∧
        deadlinePassed (blockDeadline timeout callTime) (nowAt j) = false) →
      results k = AVERROR_EAGAIN →
      deadlinePassed (blockDeadline timeout callTime) (nowAt k) = true →
      StreamReader.process_packet_block results nowAt timeout backoff
          callTime fuel = some (AVERROR_EAGAIN, k)) ∧
    (timeout < 0 →
      blockDeadline timeout callTime = none ∧
      ∀ (ret : Int) (n : Nat),
        StreamReader.process_packet_block results nowAt timeout backoff
            callTime fuel = some (ret, n) →
        ret ≠ AVERROR_EAGAIN) := by
  refine ⟨?_, ?_, ?_⟩
  · intro hk h hne
    unfold StreamReader.process_packet_block
    rw [processPacketBlockGo_skip results nowAt _ k fuel 0 (by omega)
      (fun j hj => by simpa using h j hj)]
    obtain ⟨f', hf⟩ : ∃ f', fuel - k = f' + 1 := ⟨fuel - k - 1, by omega⟩
    rw [hf]
    simp [processPacketBlockGo, hne]
  · intro hk h he hd
    unfold StreamReader.process_packet_block
    rw [processPacketBlockGo_skip results nowAt _ k fuel 0 (by omega)
      (fun j hj => by simpa using h j hj)]
    obtain ⟨f', hf⟩ : ∃ f', fuel - k = f' + 1 := ⟨fuel - k - 1, by omega⟩
    rw [hf]
    simp [processPacketBlockGo, he, hd]
  · intro ht
    have hdl : blockDeadline timeout callTime = none := by
      simp [blockDeadline, ht]
    refine ⟨hdl, ?_⟩
    intro ret n h
    unfold StreamReader.process_packet_block at h
    rw [hdl] at h
    exact processPacketBlockGo_none_ne results nowAt fuel 0 ret n h

/-- C3: the processor-arena invariant — at most one processor per source
index (structural: one slot per index), and a slot is occupied iff at
least one output-index entry references that source index — is preserved
by `add_audio_stream`, `add_video_stream` and `remove_stream`, including
failing calls (which leave the state unchanged).  In particular, after a
`remove_stream` that leaves a source index unreferenced, that index's
processor slot is empty. -/
theorem processor_arena_invariant (r : StreamReader) (i fpc nc : Int)
    (fd : Option String) (hw_accel : Option String)
    (hwf : r.wf) (hinv : r.proc_inv) :
    ((r.add_audio_stream i fpc nc fd).1.wf ∧
      (r.add_audio_stream i fpc nc fd).1.proc_inv) ∧
    ((r.add_video_stream i fpc nc fd hw_accel).1.wf ∧
      (r.add_video_stream i fpc nc fd hw_accel).1.proc_inv) ∧
    ((r.remove_stream i).1.wf ∧ (r.remove_stream i).1.proc_inv) ∧
    (∀ iP, iP < (r.remove_stream i).1.nb_streams →
      (¬ ∃ q ∈ (r.remove_stream i).1.stream_indices, q.1 = iP) →
      (r.remove_stream i).1.processors.getD iP none = none) := by
  refine ⟨?_, ?_, ?_, ?_⟩
  · exact add_stream_preserves_inv r i .audio fpc nc fd hwf hinv
  · cases hw_accel with
    | none => exact add_stream_preserves_inv r i .video fpc nc fd hwf hinv
    | some s =>
      simp only [StreamReader.add_video_stream]
      exact ⟨hwf, hinv⟩
  · exact remove_stream_preserves_inv r i hwf hinv
  · intro iP hiP hno
    have hr := (remove_stream_preserves_inv r i hwf hinv).2
    have := (hr.1 iP hiP)
    rw [← Option.not_isSome_iff_eq_none]
    intro hs
    exact hno (this.mp hs)

/-- Witness for C3 at a concrete well-formed reader satisfying the
invariant: removing its only output stream keeps the invariant (and so
empties the processor slot). -/
theorem processor_arena_invariant_witness :
    (invReader.remove_stream 0).1.wf ∧
      (invReader.remove_stream 0).1.proc_inv :=
  (processor_arena_invariant invReader 0 4 2 none none (by decide)
    (by decide)).2.2.1
